import Mathlib

/-!
The k9s container view and the checksum validation of the self-upgrade.

A shallow embedding of `internal/view/container.go` (the container view's key
handlers, the port-forward dialog callback and the port-forward session
worker) and of `validateChecksums` from `cmd/upgrade.go`, followed by the
properties proved about them.

Conventions of the embedding:

* Go strings are Lean strings, that is, texts in valid UTF-8; the `strings`,
  `unicode`, `bufio` and `encoding/hex` functions used by the code are
  written out over lists of characters, and SHA-256 over lists of bytes.
* The files `validateChecksums` opens exist and are read in full: the
  function is given their contents, `checksums.txt` as a text and the
  artifact as a list of bytes (natural numbers, taken modulo 256).
* A nil-able `*tcell.EventKey` is an `Option EventKey`; `none` is `nil`
  ("absorbed").
* Calls into collaborators that only produce an externally visible effect
  (flash notifications, dialogs, the log view, the interactive shell, the
  spawn of a goroutine) append an `Effect` to the trace of the world, in
  program order.  Debug logging is not recorded.
* `c.app.forwarders` is a finite map from FQN to a pointer to the session
  object; session objects live in a heap indexed by pointers.
* A Go run-time panic (index out of range) is the result `none`.
-/

namespace K9s

/-! ## The parts of Go's `strings` and `unicode` packages used by the code -/

namespace unicode

/-- White space as defined by Go's `unicode.IsSpace`. -/
def IsSpace (c : Char) : Bool :=
  let n := c.toNat
  n = 0x09 || n = 0x0A || n = 0x0B || n = 0x0C || n = 0x0D || n = 0x20 ||
  n = 0x85 || n = 0xA0 || n = 0x1680 || (0x2000 ≤ n && n ≤ 0x200A) ||
  n = 0x2028 || n = 0x2029 || n = 0x202F || n = 0x205F || n = 0x3000

end unicode

namespace strings

/-- Pieces of a list of characters between the occurrences of `sep`; there
is always at least one piece. -/
def splitChars (sep : Char) : List Char → List (List Char)
  | [] => [[]]
  | c :: cs =>
    if c = sep then [] :: splitChars sep cs
    else
      match splitChars sep cs with
      | [] => [[c]]
      | piece :: pieces => (c :: piece) :: pieces

/-- Go's `strings.Split(s, sep)` for a one-character separator. -/
def Split (s : String) (sep : Char) : List String :=
  (splitChars sep s.toList).map String.mk

/-- Go's `strings.TrimSpace`: leading and trailing white space removed. -/
def TrimSpace (s : String) : String :=
  String.mk ((s.toList.dropWhile unicode.IsSpace).reverse.dropWhile unicode.IsSpace).reverse

end strings

/-! ## Data model -/

/-- A `*k8s.PortForward`. -/
abbrev Ptr := Nat

/-- What the container view observes of a `k8s.PortForward` through its
methods `FQN()`, `Path()`, `Ports()` and `SetActive(bool)`. -/
structure PortForward where
  fqn : String
  path : String
  ports : List String
  active : Bool
deriving DecidableEq, Repr

/-- A `tcell.EventKey`. -/
structure EventKey where
  key : Nat
  rune : Nat
  modifiers : Nat
deriving DecidableEq, Repr

/-- The two closures `runForward` hands to `QueueUpdateDraw`. -/
inductive Report where
  | activate (pf : Ptr)
  | terminate (pf : Ptr)
deriving DecidableEq, Repr

/-- Externally visible effects of the container view, recorded in program
order. -/
inductive Effect where
  | flashInfo (msg : String)
  | flashWarn (msg : String)
  | flashErr (msg : String)
  | showLogs (previous : Bool)
  | shellIn (path container : String)
  | showPortForward (port : String)
  | dismissPortForward
  | goRunForward (pf : Ptr) (fw : Nat)
deriving DecidableEq, Repr

/-- The state the container view reads and writes: the application's session
registry and session objects, the view's path, the selection of the master
page, the updates queued on the render loop and the trace of effects. -/
structure World where
  /-- The map `c.app.forwarders`. -/
  forwarders : AList (fun _ : String => Ptr)
  /-- The session objects the pointers refer to. -/
  heap : Ptr → PortForward
  /-- The string `*c.path`. -/
  path : String
  /-- The result of `c.masterPage().RowSelected()`. -/
  rowSelected : Bool
  /-- The result of `c.masterPage().GetSelectedItem()`. -/
  selectedItem : String
  /-- The result of `c.masterPage().GetSelectedCell(col)`. -/
  selectedCell : Nat → String
  /-- Updates handed to `c.app.QueueUpdateDraw`, oldest first. -/
  queue : List Report
  /-- Effects performed so far, oldest first. -/
  trace : List Effect

namespace World

/-- Append an effect to the trace. -/
def emit (w : World) (e : Effect) : World :=
  { w with trace := w.trace ++ [e] }

/-- The call `pf.SetActive(b)`. -/
def setActive (w : World) (pf : Ptr) (b : Bool) : World :=
  { w with heap := Function.update w.heap pf { w.heap pf with active := b } }

/-- Modelled from the spec: `App.QueueUpdateDraw` is not among the sources;
the render loop is a queue that receives a worker's updates in the order the
worker produced them. -/
def queueUpdateDraw (w : World) (r : Report) : World :=
  { w with queue := w.queue ++ [r] }

end World

/-- The effects a step added to the trace of `w`, given the world `w1` it
produced. -/
def newEffects (w w1 : World) : List Effect := w1.trace.drop w.trace.length

/-! ## The container view (`internal/view/container.go`) -/

/-- The method `Container.Stop`: its body is empty. -/
def Stop (w : World) : World := w

/-- The method `Container.Start`: its body is empty. -/
def Start (w : World) : World := w

/-- The method `Container.viewLogs`. -/
def viewLogs (w : World) : World :=
  let status := w.selectedCell 3
  if status = "Running" ∨ status = "Completed" then
    w.emit (.showLogs false)
  else
    w.emit (.flashErr "No logs available")

/-- The binding `c.enterFn = c.viewLogs` made by `NewContainer`: a method
value, which holds the receiver and no cell of the table as it was when the
view was built. -/
def enterFn (_atBind : World) : World → World := viewLogs

/-- The method `Container.shellCmd`. -/
def shellCmd (w : World) (evt : Option EventKey) : Option EventKey × World :=
  if !w.rowSelected then (evt, w)
  else
    let w := Stop w
    let w := w.emit (.shellIn w.path w.selectedItem)
    let w := Start w
    (none, w)

/-- The loop of `portFwdCmd` over the candidate ports: the first candidate
accepted by `isTCPPort`, trimmed; the empty string when there is none. -/
def pickPort (isTCPPort : String → Bool) : List String → String
  | [] => ""
  | p :: ps => if !isTCPPort p then pickPort isTCPPort ps else strings.TrimSpace p

/-- The method `Container.portFwdCmd`.  The helpers `fwFQN` and `isTCPPort`
of the view package are not among the sources and are parameters. -/
def portFwdCmd (fwFQN : String → String → String) (isTCPPort : String → Bool)
    (w : World) (evt : Option EventKey) : Option EventKey × World :=
  if !w.rowSelected then (evt, w)
  else
    let sel := w.selectedItem
    if (w.forwarders.lookup (fwFQN w.path sel)).isSome then
      (none, w.emit (.flashErr ("A PortForward already exist on container " ++ w.path)))
    else
      let state := w.selectedCell 3
      if state ≠ "Running" then
        (none, w.emit (.flashErr ("Container " ++ sel ++ " is not running?")))
      else
        let portC := w.selectedCell 10
        let ports := strings.Split portC ','
        if ports.length = 0 then
          (none, w.emit (.flashErr "Container exposes no ports"))
        else
          let port := pickPort isTCPPort ports
          if port = "" then
            let w := w.emit
              (.flashWarn "No valid TCP port found on this container. User will specify...")
            (none, w.emit (.showPortForward "MY_TCP_PORT!"))
          else
            (none, w.emit (.showPortForward port))

/-- The method `Container.portForward`, the callback of the dialog.  `pf` is
the object made by `k8s.NewPortForward`, `start` the outcome of `pf.Start` on
the cluster: an error, or the forwarder to run. -/
def portForward (start : String → String → List String → Except String Nat)
    (pf : Ptr) (w : World) (lport cport : String) : World :=
  let co := w.selectedCell 0
  let ports := [lport ++ ":" ++ cport]
  match start w.path co ports with
  | .error err => w.emit (.flashErr err)
  | .ok fw => w.emit (.goRunForward pf fw)

/-- The method `Container.runForward`, the session worker.  `forwardPorts` is
the outcome of the blocking call `f.ForwardPorts()`: `none` when the tunnel
closed without error, `some err` otherwise. -/
def runForward (w : World) (pf : Ptr) (forwardPorts : Option String) : World :=
  let w := w.queueUpdateDraw (.activate pf)
  let w := w.setActive pf true
  match forwardPorts with
  | some err => w.emit (.flashErr err)
  | none => w.queueUpdateDraw (.terminate pf)

/-- What the render loop does when it runs a queued update of `runForward`.
The first closure stores the session under its FQN, flashes a confirmation
naming `pf.Ports()[0]` and dismisses the dialog; the second deletes the entry
and marks the session inactive. -/
def applyReport (r : Report) (w : World) : Option World :=
  match r with
  | .activate pf =>
    let w := { w with forwarders := w.forwarders.insert (w.heap pf).fqn pf }
    match (w.heap pf).ports with
    | [] => none
    | p0 :: _ =>
      let w := w.emit (.flashInfo ("PortForward activated " ++ (w.heap pf).path ++ ":" ++ p0))
      some (w.emit .dismissPortForward)
  | .terminate pf =>
    let w := { w with forwarders := w.forwarders.erase (w.heap pf).fqn }
    some (w.setActive pf false)

/-- The render loop runs the given updates one after the other. -/
def applyReports : List Report → World → Option World
  | [], w => some w
  | r :: rs, w => (applyReport r w).bind (applyReports rs)

/-- The render loop runs every queued update, oldest first. -/
def drain (w : World) : Option World :=
  applyReports w.queue { w with queue := [] }

/-! ## The action map of the container view -/

/-- A `tcell.Key`. -/
abbrev Key := Nat

/-- The handlers an action of the container view can be bound to: the
methods named in `extraActions`, and any other handler, by name. -/
inductive Handler where
  | portFwdCmd
  | prevLogsCmd
  | shellCmd
  | backCmd
  | sortColCmd (col : Nat) (asc : Bool)
  | other (name : String)
deriving DecidableEq, Repr

/-- A `ui.KeyAction` as built by `ui.NewKeyAction(description, action, visible)`. -/
structure KeyAction where
  description : String
  action : Handler
  visible : Bool
deriving DecidableEq, Repr

/-- The map type `ui.KeyActions`. -/
abbrev KeyActions := AList (fun _ : Key => KeyAction)

/-- The key constants `extraActions` binds.  Their declarations (package
`ui`, and `tcell` for Escape) are not among the sources. -/
structure Keys where
  KeyShiftF : Key
  KeyShiftL : Key
  KeyS : Key
  KeyEscape : Key
  KeyP : Key
  KeyShiftC : Key
  KeyShiftM : Key
  KeyShiftX : Key
  KeyShiftZ : Key

/-- The nine triggers of the container view, in the order they are bound. -/
def Keys.triggers (ks : Keys) : List Key :=
  [ks.KeyShiftF, ks.KeyShiftL, ks.KeyS, ks.KeyEscape, ks.KeyP,
   ks.KeyShiftC, ks.KeyShiftM, ks.KeyShiftX, ks.KeyShiftZ]

/-- The method `Container.extraActions`.  `base` is the embedded
`LogResource.extraActions`, which is not among the sources; the map it
leaves is then assigned the nine bindings, one after the other. -/
def extraActions (ks : Keys) (base : KeyActions → KeyActions) (aa : KeyActions) : KeyActions :=
  let aa := base aa
  let aa := aa.insert ks.KeyShiftF { description := "PortForward", action := .portFwdCmd, visible := true }
  let aa := aa.insert ks.KeyShiftL { description := "Logs Previous", action := .prevLogsCmd, visible := true }
  let aa := aa.insert ks.KeyS { description := "Shell", action := .shellCmd, visible := true }
  let aa := aa.insert ks.KeyEscape { description := "Back", action := .backCmd, visible := false }
  let aa := aa.insert ks.KeyP { description := "Previous", action := .backCmd, visible := false }
  let aa := aa.insert ks.KeyShiftC { description := "Sort CPU", action := .sortColCmd 6 false, visible := false }
  let aa := aa.insert ks.KeyShiftM { description := "Sort MEM", action := .sortColCmd 7 false, visible := false }
  let aa := aa.insert ks.KeyShiftX { description := "Sort CPU%", action := .sortColCmd 8 false, visible := false }
  aa.insert ks.KeyShiftZ { description := "Sort MEM%", action := .sortColCmd 9 false, visible := false }

/-! ## SHA-256 and hexadecimal encoding (Go's `crypto/sha256`, `encoding/hex`) -/

namespace sha256

/-- Rotation to the right of a 32-bit word. -/
def rotr (n x : Nat) : Nat := ((x >>> n) ||| (x <<< (32 - n))) % 2 ^ 32

/-- The choice function: the bits of `f` where `e` has a one, those of `g`
where it has a zero. -/
def ch (e f g : Nat) : Nat := (e &&& f) ^^^ ((2 ^ 32 - 1 - e) &&& g)

/-- The majority function, bit by bit. -/
def maj (a b c : Nat) : Nat := (a &&& b) ^^^ (a &&& c) ^^^ (b &&& c)

/-- The first mixing function of the compression rounds. -/
def bigSigma0 (x : Nat) : Nat := rotr 2 x ^^^ rotr 13 x ^^^ rotr 22 x

/-- The second mixing function of the compression rounds. -/
def bigSigma1 (x : Nat) : Nat := rotr 6 x ^^^ rotr 11 x ^^^ rotr 25 x

/-- The first mixing function of the message schedule. -/
def smallSigma0 (x : Nat) : Nat := rotr 7 x ^^^ rotr 18 x ^^^ (x >>> 3)

/-- The second mixing function of the message schedule. -/
def smallSigma1 (x : Nat) : Nat := rotr 17 x ^^^ rotr 19 x ^^^ (x >>> 10)

/-- The round constants. -/
def K : List Nat :=
  [0x428A2F98, 0x71374491, 0xB5C0FBCF, 0xE9B5DBA5, 0x3956C25B, 0x59F111F1, 0x923F82A4, 0xAB1C5ED5,
   0xD807AA98, 0x12835B01, 0x243185BE, 0x550C7DC3, 0x72BE5D74, 0x80DEB1FE, 0x9BDC06A7, 0xC19BF174,
   0xE49B69C1, 0xEFBE4786, 0x0FC19DC6, 0x240CA1CC, 0x2DE92C6F, 0x4A7484AA, 0x5CB0A9DC, 0x76F988DA,
   0x983E5152, 0xA831C66D, 0xB00327C8, 0xBF597FC7, 0xC6E00BF3, 0xD5A79147, 0x06CA6351, 0x14292967,
   0x27B70A85, 0x2E1B2138, 0x4D2C6DFC, 0x53380D13, 0x650A7354, 0x766A0ABB, 0x81C2C92E, 0x92722C85,
   0xA2BFE8A1, 0xA81A664B, 0xC24B8B70, 0xC76C51A3, 0xD192E819, 0xD6990624, 0xF40E3585, 0x106AA070,
   0x19A4C116, 0x1E376C08, 0x2748774C, 0x34B0BCB5, 0x391C0CB3, 0x4ED8AA4A, 0x5B9CCA4F, 0x682E6FF3,
   0x748F82EE, 0x78A5636F, 0x84C87814, 0x8CC70208, 0x90BEFFFA, 0xA4506CEB, 0xBEF9A3F7, 0xC67178F2]

/-- The eight working words. -/
structure Digest where
  a : Nat
  b : Nat
  c : Nat
  d : Nat
  e : Nat
  f : Nat
  g : Nat
  h : Nat
deriving DecidableEq, Repr

/-- The initial hash value. -/
def init : Digest :=
  { a := 0x6A09E667, b := 0xBB67AE85, c := 0x3C6EF372, d := 0xA54FF53A,
    e := 0x510E527F, f := 0x9B05688C, g := 0x1F83D9AB, h := 0x5BE0CD19 }

/-- The message with its padding: a one bit, zero bits up to 56 modulo 64
bytes, and the length in bits as a big-endian 64-bit number. -/
def pad (msg : List Nat) : List Nat :=
  let bits := (8 * msg.length) % 2 ^ 64
  msg.map (· % 256) ++ [0x80] ++ List.replicate ((119 - msg.length % 64) % 64) 0 ++
    (List.range 8).map (fun i => (bits >>> (8 * (7 - i))) % 256)

/-- The big-endian 32-bit words of a list of bytes, `n` of them. -/
def words : Nat → List Nat → List Nat
  | 0, _ => []
  | n + 1, bs =>
    (bs.getD 0 0 * 2 ^ 24 + bs.getD 1 0 * 2 ^ 16 + bs.getD 2 0 * 2 ^ 8 + bs.getD 3 0)
      :: words n (bs.drop 4)

/-- The message schedule extended by `n` words. -/
def schedule : Nat → List Nat → List Nat
  | 0, w => w
  | n + 1, w =>
    let t := w.length
    schedule n (w ++ [(smallSigma1 (w.getD (t - 2) 0) + w.getD (t - 7) 0
      + smallSigma0 (w.getD (t - 15) 0) + w.getD (t - 16) 0) % 2 ^ 32])

/-- One round of the compression function. -/
def round (s : Digest) (kw : Nat × Nat) : Digest :=
  let t1 := s.h + bigSigma1 s.e + ch s.e s.f s.g + kw.1 + kw.2
  let t2 := bigSigma0 s.a + maj s.a s.b s.c
  { a := (t1 + t2) % 2 ^ 32, b := s.a, c := s.b, d := s.c,
    e := (s.d + t1) % 2 ^ 32, f := s.e, g := s.f, h := s.g }

/-- The compression of one 64-byte block into the hash value. -/
def block (hv : Digest) (bs : List Nat) : Digest :=
  let s := (K.zip (schedule 48 (words 16 bs))).foldl round hv
  { a := (hv.a + s.a) % 2 ^ 32, b := (hv.b + s.b) % 2 ^ 32, c := (hv.c + s.c) % 2 ^ 32,
    d := (hv.d + s.d) % 2 ^ 32, e := (hv.e + s.e) % 2 ^ 32, f := (hv.f + s.f) % 2 ^ 32,
    g := (hv.g + s.g) % 2 ^ 32, h := (hv.h + s.h) % 2 ^ 32 }

/-- The compression of `n` consecutive blocks. -/
def blocks : Nat → Digest → List Nat → Digest
  | 0, hv, _ => hv
  | n + 1, hv, bs => blocks n (block hv (bs.take 64)) (bs.drop 64)

/-- The four bytes of a 32-bit word, most significant first. -/
def wordBytes (x : Nat) : List Nat :=
  [x / 2 ^ 24 % 256, x / 2 ^ 16 % 256, x / 2 ^ 8 % 256, x % 256]

/-- The 32 bytes of the SHA-256 digest of a list of bytes: what `hash.Sum(nil)`
returns once the content has been copied into `sha256.New()`. -/
def Sum (msg : List Nat) : List Nat :=
  let p := pad msg
  let d := blocks (p.length / 64) init p
  wordBytes d.a ++ wordBytes d.b ++ wordBytes d.c ++ wordBytes d.d ++
    wordBytes d.e ++ wordBytes d.f ++ wordBytes d.g ++ wordBytes d.h

end sha256

namespace hex

/-- The digit of `hextable` at an index below 16. -/
def hexDigit (n : Nat) : Char := "0123456789abcdef".toList.getD n '0'

/-- Go's `hex.EncodeToString`: two lower-case hexadecimal digits per byte. -/
def EncodeToString (bs : List Nat) : String :=
  String.mk (bs.flatMap fun b => [hexDigit (b % 256 / 16), hexDigit (b % 16)])

end hex

/-! ## Line scanning (`bufio.Scanner`) and `strings.Fields` -/

namespace strings

/-- Whether a field that has begun ends before the given rest of the text:
at the end of the text or at white space. -/
def fieldEnds : List Char → Bool
  | [] => true
  | d :: _ => unicode.IsSpace d

/-- The fields of a list of characters: the maximal runs of characters that
are not white space. -/
def fieldsChars : List Char → List (List Char)
  | [] => []
  | c :: cs =>
    if unicode.IsSpace c then fieldsChars cs
    else if fieldEnds cs then [c] :: fieldsChars cs
    else
      match fieldsChars cs with
      | [] => [[c]]
      | field :: fields => (c :: field) :: fields

/-- Go's `strings.Fields`. -/
def Fields (s : String) : List String := (fieldsChars s.toList).map String.mk

end strings

namespace bufio

/-- The constant `bufio.MaxScanTokenSize`, the size the buffer of a `Scanner`
grows to at most. -/
def MaxScanTokenSize : Nat := 64 * 1024

/-- The number of bytes of the UTF-8 encoding of a list of characters. -/
def byteLen (cs : List Char) : Nat := (cs.map Char.utf8Size).sum

/-- The function `dropCR` of `bufio`: one trailing carriage return is
dropped. -/
def dropCR (cs : List Char) : List Char :=
  if cs.getLast? = some '\r' then cs.dropLast else cs

/-- The lines `ScanLines` cuts a text into, before `dropCR`: the pieces
between line feeds, without the empty piece after a final line feed. -/
def rawLines (cs : List Char) : List (List Char) :=
  let pieces := strings.splitChars '\n' cs
  if pieces.getLast? = some [] then pieces.dropLast else pieces

/-- The lines of a text as `ScanLines` defines them, whatever their length. -/
def textLines (s : String) : List String :=
  (rawLines s.toList).map fun l => String.mk (dropCR l)

/-- The texts a `bufio.Scanner` with the `ScanLines` split function returns
over successive calls of `Scan`, until `Scan` returns false: at the end of the
input, or at the first line that does not fit in a buffer of
`MaxScanTokenSize` bytes (`ErrTooLong`). -/
def scanLines (s : String) : List String :=
  ((rawLines s.toList).takeWhile fun l => decide (byteLen l < MaxScanTokenSize)).map
    fun l => String.mk (dropCR l)

end bufio

/-! ## Checksum validation (`cmd/upgrade.go`) -/

/-- The loop of `validateChecksums` over the scanned lines: each line is
split into fields and `md5sums[z[0]] = z[1]` is run; a line with fewer than
two fields makes an index go out of range. -/
def readSums : List String → AList (fun _ : String => String) →
    Option (AList (fun _ : String => String))
  | [], md5sums => some md5sums
  | line :: lines, md5sums =>
    match strings.Fields line with
    | z0 :: z1 :: _ => readSums lines (md5sums.insert z0 z1)
    | _ => none

/-- The function `validateChecksums`, on the content of `checksums.txt` and
the content of the file named `k9sRelease`. -/
def validateChecksums (checksums : String) (artifact : List Nat) (k9sRelease : String) :
    Option Bool :=
  match readSums (bufio.scanLines checksums) ∅ with
  | none => none
  | some md5sums =>
    some (decide ((md5sums.lookup k9sRelease).getD "" = hex.EncodeToString (sha256.Sum artifact)))

/-- The second field of the last of the given lines whose first field is
`name`. -/
def lastSum (name : String) (lines : List String) : Option String :=
  (lines.reverse.find? fun l => decide ((strings.Fields l).head? = some name)).bind
    fun l => (strings.Fields l)[1]?

/-! ## Stand-ins for helpers that are not among the sources -/

/-- Modelled from the spec: the helper `fwFQN` of the view package is not
among the sources; the FQN of a session is built from the path and the
container name it is given. -/
def fwFQN (po co : String) : String := po ++ ":" ++ co

/-- Modelled from the spec: the helper `isTCPPort` of the view package is not
among the sources; a candidate is taken as a syntactically valid TCP port
designation when, white space apart, it is a non-empty run of decimal
digits. -/
def isTCPPort (p : String) : Bool :=
  let t := (strings.TrimSpace p).toList
  !t.isEmpty && t.all Char.isDigit

/-! ## Sample inputs -/

/-- A selection with nothing in the registry: container `app` of pod
`ns1/pod1`, running, exposing three ports. -/
def sampleWorld : World :=
  { forwarders := ∅
    heap := fun _ => { fqn := "ns1/pod1:app", path := "ns1/pod1", ports := ["8080:80"], active := false }
    path := "ns1/pod1"
    rowSelected := true
    selectedItem := "app"
    selectedCell := fun col =>
      if col = 0 then "app" else if col = 3 then "Running"
      else if col = 10 then "80,udp/53,8080" else ""
    queue := []
    trace := [] }

/-- A key press of `Shift-F`. -/
def sampleEvent : EventKey := { key := 70, rune := 70, modifiers := 0 }

/-- The registry of `sampleWorld` with a session stored for its selection. -/
def sampleBusyWorld : World :=
  { sampleWorld with forwarders := (∅ : AList (fun _ : String => Ptr)).insert "ns1/pod1:app" 0 }

/-- A running selection whose only exposed port is a UDP port. -/
def sampleUdpWorld : World :=
  { sampleWorld with
    selectedCell := fun col =>
      if col = 0 then "app" else if col = 3 then "Running"
      else if col = 10 then "udp/53" else "" }

/-- The selection of `sampleWorld` with the container still pending. -/
def samplePendingWorld : World :=
  { sampleWorld with
    selectedCell := fun col =>
      if col = 0 then "app" else if col = 3 then "Pending"
      else if col = 10 then "80,udp/53,8080" else "" }

/-- The master page of `sampleWorld` with no row selected. -/
def sampleNoRowWorld : World := { sampleWorld with rowSelected := false }

/-- Sample key codes: the shifted letters are the upper-case ASCII codes, the
plain letters the lower-case ones, Escape is 27. -/
def sampleKeys : Keys :=
  { KeyShiftF := 70, KeyShiftL := 76, KeyS := 115, KeyEscape := 27, KeyP := 112,
    KeyShiftC := 67, KeyShiftM := 77, KeyShiftX := 88, KeyShiftZ := 90 }

/-- A base that binds `l` to the log view and `Shift-L` to the previous
logs. -/
def sampleBase (aa : KeyActions) : KeyActions :=
  (aa.insert 108 { description := "Logs", action := .other "logsCmd", visible := true }).insert
    76 { description := "Logs Previous", action := .prevLogsCmd, visible := true }

/-- The name of a release archive. -/
def sampleName : String := "k9s_Linux_x86_64.tar.gz"

/-- The line of `checksums.txt` for an empty archive of that name: the name
and the SHA-256 digest of the empty content. -/
def sampleEntry : String :=
  "k9s_Linux_x86_64.tar.gz e3b0c44298fc1c149afbf4c8996fb92427ae41e4649b934ca495991b7852b855"

/-- A `checksums.txt` of two well-formed lines. -/
def sampleChecksums : String :=
  "k9s_Darwin_x86_64.tar.gz 0000000000000000000000000000000000000000000000000000000000000000\n"
    ++ sampleEntry ++ "\n"

/-- A `checksums.txt` of two lines: a first line of `n` letters `a`, a blank
and an `x`, then the entry of the empty archive. -/
def longChecksums (n : Nat) : String :=
  String.mk (List.replicate n 'a' ++ ' ' :: 'x' :: '\n' :: (sampleEntry.toList ++ ['\n']))

/-! ## Lemmas -/

theorem splitChars_ne_nil (sep : Char) (cs : List Char) : strings.splitChars sep cs ≠ [] := by
  induction cs with
  | nil => simp [strings.splitChars]
  | cons c cs ih =>
    unfold strings.splitChars
    split
    · simp
    · split <;> simp

theorem Split_length_pos (s : String) (sep : Char) : (strings.Split s sep).length ≠ 0 := by
  have h := splitChars_ne_nil sep s.toList
  simp only [strings.Split, List.length_map]
  intro h0
  exact h (List.length_eq_zero.mp h0)

theorem pickPort_eq_find (isTCP : String → Bool) (ps : List String) :
    pickPort isTCP ps = ((ps.find? isTCP).map strings.TrimSpace).getD "" := by
  induction ps with
  | nil => rfl
  | cons p ps ih =>
    unfold pickPort
    cases hp : isTCP p <;> simp [List.find?, hp, ih]

/-! ## Properties of the key handlers -/

/-- C1: when the registry already holds an entry under the FQN of the current
path and selected container, `portFwdCmd` on a selected row raises an error
notification and nothing else (no dialog, no worker, nothing queued), leaves
the registry as it was (same map, hence same keys, values and size) and
returns nil. -/
theorem portFwdCmd_rejects_duplicate (fqnOf : String → String → String)
    (isTCP : String → Bool) (w : World) (evt : Option EventKey)
    (hsel : w.rowSelected = true)
    (hdup : fqnOf w.path w.selectedItem ∈ w.forwarders) :
    (portFwdCmd fqnOf isTCP w evt).1 = none ∧
    (portFwdCmd fqnOf isTCP w evt).2.forwarders = w.forwarders ∧
    (portFwdCmd fqnOf isTCP w evt).2.forwarders.keys = w.forwarders.keys ∧
    (portFwdCmd fqnOf isTCP w evt).2.forwarders.entries.length = w.forwarders.entries.length ∧
    (portFwdCmd fqnOf isTCP w evt).2.heap = w.heap ∧
    (portFwdCmd fqnOf isTCP w evt).2.queue = w.queue ∧
    newEffects w (portFwdCmd fqnOf isTCP w evt).2 =
      [.flashErr ("A PortForward already exist on container " ++ w.path)] := by
  have hsome : (w.forwarders.lookup (fqnOf w.path w.selectedItem)).isSome = true :=
    AList.lookup_isSome.mpr hdup
  simp [portFwdCmd, hsel, hsome, newEffects, World.emit]

theorem portFwdCmd_rejects_duplicate_witness :
    (portFwdCmd fwFQN isTCPPort sampleBusyWorld (some sampleEvent)).1 = none ∧
    (portFwdCmd fwFQN isTCPPort sampleBusyWorld (some sampleEvent)).2.forwarders
      = sampleBusyWorld.forwarders ∧
    (portFwdCmd fwFQN isTCPPort sampleBusyWorld (some sampleEvent)).2.forwarders.keys
      = sampleBusyWorld.forwarders.keys ∧
    (portFwdCmd fwFQN isTCPPort sampleBusyWorld (some sampleEvent)).2.forwarders.entries.length
      = sampleBusyWorld.forwarders.entries.length ∧
    (portFwdCmd fwFQN isTCPPort sampleBusyWorld (some sampleEvent)).2.heap = sampleBusyWorld.heap ∧
    (portFwdCmd fwFQN isTCPPort sampleBusyWorld (some sampleEvent)).2.queue
      = sampleBusyWorld.queue ∧
    newEffects sampleBusyWorld (portFwdCmd fwFQN isTCPPort sampleBusyWorld (some sampleEvent)).2 =
      [.flashErr ("A PortForward already exist on container " ++ sampleBusyWorld.path)] :=
  portFwdCmd_rejects_duplicate fwFQN isTCPPort sampleBusyWorld (some sampleEvent)
    (by decide) (AList.lookup_isSome.mp (by decide))

/-- C4: on a selected, running row without a forwarder, `portFwdCmd` absorbs
the event and shows the forward dialog.  When some candidate of the
comma-separated ports column is accepted by `isTCPPort`, the dialog is
pre-filled with the first such candidate in list order, trimmed, and nothing
else happens; when none is, a warning is raised and the dialog is pre-filled
with `MY_TCP_PORT!`.  A candidate that is a port designation is not blank:
that is the hypothesis `hvalid`. -/
theorem portFwdCmd_picks_first_tcp_port (fqnOf : String → String → String)
    (isTCP : String → Bool) (w : World) (evt : Option EventKey)
    (hsel : w.rowSelected = true)
    (hfree : fqnOf w.path w.selectedItem ∉ w.forwarders)
    (hrun : w.selectedCell 3 = "Running")
    (hvalid : ∀ p ∈ strings.Split (w.selectedCell 10) ',',
      isTCP p = true → strings.TrimSpace p ≠ "") :
    (portFwdCmd fqnOf isTCP w evt).1 = none ∧
    (portFwdCmd fqnOf isTCP w evt).2.forwarders = w.forwarders ∧
    (portFwdCmd fqnOf isTCP w evt).2.queue = w.queue ∧
    (∀ p, (strings.Split (w.selectedCell 10) ',').find? isTCP = some p →
      newEffects w (portFwdCmd fqnOf isTCP w evt).2
        = [.showPortForward (strings.TrimSpace p)]) ∧
    ((strings.Split (w.selectedCell 10) ',').find? isTCP = none →
      newEffects w (portFwdCmd fqnOf isTCP w evt).2
        = [.flashWarn "No valid TCP port found on this container. User will specify...",
           .showPortForward "MY_TCP_PORT!"]) := by
  have hnone : (w.forwarders.lookup (fqnOf w.path w.selectedItem)).isSome = false := by
    cases h : (w.forwarders.lookup (fqnOf w.path w.selectedItem)).isSome
    · rfl
    · exact absurd (AList.lookup_isSome.mp h) hfree
  have hlen := Split_length_pos (w.selectedCell 10) ','
  have hpick := pickPort_eq_find isTCP (strings.Split (w.selectedCell 10) ',')
  cases hf : (strings.Split (w.selectedCell 10) ',').find? isTCP with
  | none =>
    rw [hf] at hpick
    simp [portFwdCmd, hsel, hnone, hrun, hlen, hpick, newEffects, World.emit]
  | some p =>
    rw [hf] at hpick
    have hp : strings.TrimSpace p ≠ "" :=
      hvalid p (List.mem_of_find?_eq_some hf) (List.find?_some hf)
    simp [portFwdCmd, hsel, hnone, hrun, hlen, hpick, hp, newEffects, World.emit]

/-- When the first candidate accepted by `isTCPPort` is blank, the loop leaves
the port empty: the warning is raised and the dialog is pre-filled with
`MY_TCP_PORT!`, whatever the later candidates are. -/
theorem portFwdCmd_blank_first_candidate (fqnOf : String → String → String)
    (isTCP : String → Bool) (w : World) (evt : Option EventKey) (p : String)
    (hsel : w.rowSelected = true)
    (hfree : fqnOf w.path w.selectedItem ∉ w.forwarders)
    (hrun : w.selectedCell 3 = "Running")
    (hfirst : (strings.Split (w.selectedCell 10) ',').find? isTCP = some p)
    (hblank : strings.TrimSpace p = "") :
    newEffects w (portFwdCmd fqnOf isTCP w evt).2
      = [.flashWarn "No valid TCP port found on this container. User will specify...",
         .showPortForward "MY_TCP_PORT!"] := by
  have hnone : (w.forwarders.lookup (fqnOf w.path w.selectedItem)).isSome = false := by
    cases h : (w.forwarders.lookup (fqnOf w.path w.selectedItem)).isSome
    · rfl
    · exact absurd (AList.lookup_isSome.mp h) hfree
  have hlen := Split_length_pos (w.selectedCell 10) ','
  have hpick := pickPort_eq_find isTCP (strings.Split (w.selectedCell 10) ',')
  rw [hfirst] at hpick
  simp [portFwdCmd, hsel, hnone, hrun, hlen, hpick, hblank, newEffects, World.emit]

theorem portFwdCmd_picks_first_tcp_port_witness :
    newEffects sampleWorld (portFwdCmd fwFQN isTCPPort sampleWorld (some sampleEvent)).2
      = [.showPortForward "80"] ∧
    newEffects sampleUdpWorld (portFwdCmd fwFQN isTCPPort sampleUdpWorld (some sampleEvent)).2
      = [.flashWarn "No valid TCP port found on this container. User will specify...",
         .showPortForward "MY_TCP_PORT!"] :=
  ⟨(portFwdCmd_picks_first_tcp_port fwFQN isTCPPort sampleWorld (some sampleEvent)
      (by decide) (fun h => absurd (AList.lookup_isSome.mpr h) (by decide)) (by decide)
      (by decide)).2.2.2.1 "80" (by decide),
   (portFwdCmd_picks_first_tcp_port fwFQN isTCPPort sampleUdpWorld (some sampleEvent)
      (by decide) (fun h => absurd (AList.lookup_isSome.mpr h) (by decide)) (by decide)
      (by decide)).2.2.2.2 (by decide)⟩

/-- C5: the log action bound at any earlier state of the table, invoked at
`w`, opens the current (non-previous) log view exactly when the status cell
read at `w` is `Running` or `Completed`; for every other status it raises the
error `No logs available` and opens no log view.  The registry and the queue
are not touched. -/
theorem viewLogs_gate_at_invocation (wBind w : World) :
    (newEffects w (enterFn wBind w) = [.showLogs false] ↔
      (w.selectedCell 3 = "Running" ∨ w.selectedCell 3 = "Completed")) ∧
    (newEffects w (enterFn wBind w) = [.flashErr "No logs available"] ↔
      ¬ (w.selectedCell 3 = "Running" ∨ w.selectedCell 3 = "Completed")) ∧
    (¬ (w.selectedCell 3 = "Running" ∨ w.selectedCell 3 = "Completed") →
      ∀ previous, Effect.showLogs previous ∉ newEffects w (enterFn wBind w)) ∧
    (enterFn wBind w).forwarders = w.forwarders ∧
    (enterFn wBind w).queue = w.queue := by
  by_cases h : w.selectedCell 3 = "Running" ∨ w.selectedCell 3 = "Completed"
  · simp [enterFn, viewLogs, h, newEffects, World.emit]
  · simp [enterFn, viewLogs, h, newEffects, World.emit]

/-- C6: on a selected row without a forwarder, `portFwdCmd` shows the
port-forward dialog if and only if the status cell is `Running`; for every
other status it raises an error notification and nothing else (no dialog, no
worker), leaves registry, sessions and queue as they were and returns nil. -/
theorem portFwdCmd_requires_running (fqnOf : String → String → String)
    (isTCP : String → Bool) (w : World) (evt : Option EventKey)
    (hsel : w.rowSelected = true)
    (hfree : fqnOf w.path w.selectedItem ∉ w.forwarders) :
    ((∃ port, Effect.showPortForward port ∈ newEffects w (portFwdCmd fqnOf isTCP w evt).2) ↔
      w.selectedCell 3 = "Running") ∧
    (w.selectedCell 3 ≠ "Running" →
      newEffects w (portFwdCmd fqnOf isTCP w evt).2
        = [.flashErr ("Container " ++ w.selectedItem ++ " is not running?")]) ∧
    (portFwdCmd fqnOf isTCP w evt).1 = none ∧
    (portFwdCmd fqnOf isTCP w evt).2.forwarders = w.forwarders ∧
    (portFwdCmd fqnOf isTCP w evt).2.heap = w.heap ∧
    (portFwdCmd fqnOf isTCP w evt).2.queue = w.queue := by
  have hnone : (w.forwarders.lookup (fqnOf w.path w.selectedItem)).isSome = false := by
    cases h : (w.forwarders.lookup (fqnOf w.path w.selectedItem)).isSome
    · rfl
    · exact absurd (AList.lookup_isSome.mp h) hfree
  have hlen := Split_length_pos (w.selectedCell 10) ','
  by_cases hrun : w.selectedCell 3 = "Running"
  · by_cases hport : pickPort isTCP (strings.Split (w.selectedCell 10) ',') = ""
    · simp [portFwdCmd, hsel, hnone, hrun, hlen, hport, newEffects, World.emit]
    · simp [portFwdCmd, hsel, hnone, hrun, hlen, hport, newEffects, World.emit]
  · simp [portFwdCmd, hsel, hnone, hrun, newEffects, World.emit]

theorem portFwdCmd_requires_running_witness :
    newEffects samplePendingWorld
        (portFwdCmd fwFQN isTCPPort samplePendingWorld (some sampleEvent)).2
      = [.flashErr ("Container " ++ samplePendingWorld.selectedItem ++ " is not running?")] :=
  (portFwdCmd_requires_running fwFQN isTCPPort samplePendingWorld (some sampleEvent)
    (by decide) (fun h => absurd (AList.lookup_isSome.mpr h) (by decide))).2.1 (by decide)

/-- C8: when `pf.Start` fails on the port pair confirmed in the dialog,
`portForward` raises the error as an error notification and does nothing
else: no worker is spawned, nothing is queued, and the registry and the
session objects are as they were. -/
theorem portForward_start_failure (start : String → String → List String → Except String Nat)
    (pf : Ptr) (w : World) (lport cport err : String)
    (hfail : start w.path (w.selectedCell 0) [lport ++ ":" ++ cport] = .error err) :
    newEffects w (portForward start pf w lport cport) = [.flashErr err] ∧
    (∀ p fw, Effect.goRunForward p fw ∉ newEffects w (portForward start pf w lport cport)) ∧
    (portForward start pf w lport cport).forwarders = w.forwarders ∧
    (portForward start pf w lport cport).heap = w.heap ∧
    (portForward start pf w lport cport).queue = w.queue := by
  simp [portForward, hfail, newEffects, World.emit]

theorem portForward_start_failure_witness :
    newEffects sampleWorld
        (portForward (fun _ _ _ => .error "address already in use") 0 sampleWorld "8080" "80")
      = [.flashErr "address already in use"] :=
  (portForward_start_failure (fun _ _ _ => .error "address already in use") 0 sampleWorld
    "8080" "80" "address already in use" rfl).1

/-- C7, as stated, fails: with no row selected, on a `Shift-F` key press,
neither `shellCmd` nor `portFwdCmd` returns nil, and neither raises a
notification; each hands the event back. -/
theorem no_row_not_absorbed_counterexample :
    (shellCmd sampleNoRowWorld (some sampleEvent)).1 ≠ none ∧
    (portFwdCmd fwFQN isTCPPort sampleNoRowWorld (some sampleEvent)).1 ≠ none ∧
    newEffects sampleNoRowWorld (shellCmd sampleNoRowWorld (some sampleEvent)).2 = [] ∧
    newEffects sampleNoRowWorld
      (portFwdCmd fwFQN isTCPPort sampleNoRowWorld (some sampleEvent)).2 = [] := by
  decide

/-- C7, amended: for every input event, when no row is selected, `shellCmd`
and `portFwdCmd` each do nothing at all (no notification, no shell, no
dialog, no change of the registry, the sessions or the queue) and return the
event they were given, so that it falls through. -/
theorem no_row_falls_through (fqnOf : String → String → String) (isTCP : String → Bool)
    (w : World) (evt : Option EventKey) (hsel : w.rowSelected = false) :
    shellCmd w evt = (evt, w) ∧ portFwdCmd fqnOf isTCP w evt = (evt, w) := by
  simp [shellCmd, portFwdCmd, hsel]

theorem no_row_falls_through_witness :
    shellCmd sampleNoRowWorld (some sampleEvent) = (some sampleEvent, sampleNoRowWorld) ∧
    portFwdCmd fwFQN isTCPPort sampleNoRowWorld (some sampleEvent)
      = (some sampleEvent, sampleNoRowWorld) :=
  no_row_falls_through fwFQN isTCPPort sampleNoRowWorld (some sampleEvent) (by decide)

/-! ## Properties of the session worker -/

theorem runForward_forwarders (w : World) (pf : Ptr) (outcome : Option String) :
    (runForward w pf outcome).forwarders = w.forwarders := by
  cases outcome <;> simp [runForward, World.queueUpdateDraw, World.setActive, World.emit]

theorem runForward_heap (w : World) (pf : Ptr) (outcome : Option String) :
    (runForward w pf outcome).heap pf = { w.heap pf with active := true } := by
  cases outcome <;> simp [runForward, World.queueUpdateDraw, World.setActive, World.emit]

theorem applyReport_activate (s : World) (pf : Ptr) (p0 : String) (rest : List String)
    (hp : (s.heap pf).ports = p0 :: rest) :
    applyReport (.activate pf) s =
      some ((({ s with forwarders := s.forwarders.insert (s.heap pf).fqn pf } : World).emit
        (.flashInfo ("PortForward activated " ++ (s.heap pf).path ++ ":" ++ p0))).emit
        .dismissPortForward) := by
  simp only [applyReport, hp]

theorem applyReport_terminate (s : World) (pf : Ptr) :
    applyReport (.terminate pf) s =
      some (({ s with forwarders := s.forwarders.erase (s.heap pf).fqn } : World).setActive
        pf false) := rfl

/-- C2: a worker whose tunnel closes without error queues exactly two updates,
first the activation then the termination, and touches neither the registry
nor the trace itself.  Run at any state, the first update stores the session
under its FQN and the second removes that FQN and marks the session inactive;
both leave every other FQN as it was.  Run one after the other on the world
the worker left, they first add and then remove the session's entry, and the
other entries are those of the initial registry.  `Ports()[0]` exists for a
started session: that is the hypothesis `hports`. -/
theorem runForward_clean_close_reports (w : World) (pf : Ptr)
    (hports : (w.heap pf).ports ≠ []) :
    (runForward w pf none).queue = w.queue ++ [.activate pf, .terminate pf] ∧
    (runForward w pf none).forwarders = w.forwarders ∧
    (runForward w pf none).trace = w.trace ∧
    (∀ s : World, (s.heap pf).ports ≠ [] →
      ∃ s1, applyReport (.activate pf) s = some s1 ∧
        s1.forwarders.lookup (s.heap pf).fqn = some pf ∧
        ∀ k, k ≠ (s.heap pf).fqn → s1.forwarders.lookup k = s.forwarders.lookup k) ∧
    (∀ s : World,
      ∃ s2, applyReport (.terminate pf) s = some s2 ∧
        s2.forwarders.lookup (s.heap pf).fqn = none ∧
        (s2.heap pf).active = false ∧
        ∀ k, k ≠ (s.heap pf).fqn → s2.forwarders.lookup k = s.forwarders.lookup k) ∧
    (∃ s1 s2, applyReport (.activate pf) (runForward w pf none) = some s1 ∧
        applyReport (.terminate pf) s1 = some s2 ∧
        s1.forwarders.lookup (w.heap pf).fqn = some pf ∧
        s2.forwarders.lookup (w.heap pf).fqn = none ∧
        (s2.heap pf).active = false ∧
        ∀ k, k ≠ (w.heap pf).fqn →
          s1.forwarders.lookup k = w.forwarders.lookup k ∧
          s2.forwarders.lookup k = w.forwarders.lookup k) := by
  refine ⟨?_, ?_, ?_, ?_, ?_, ?_⟩
  · simp [runForward, World.queueUpdateDraw, World.setActive]
  · simp [runForward, World.queueUpdateDraw, World.setActive]
  · simp [runForward, World.queueUpdateDraw, World.setActive]
  · intro s hs
    cases hp : (s.heap pf).ports with
    | nil => exact absurd hp hs
    | cons p0 rest =>
      refine ⟨_, applyReport_activate s pf p0 rest hp, ?_, ?_⟩
      · simp [World.emit, AList.lookup_insert]
      · intro k hk
        simp [World.emit, AList.lookup_insert_ne hk]
  · intro s
    refine ⟨_, applyReport_terminate s pf, ?_, ?_, ?_⟩
    · simp [World.setActive, AList.lookup_erase]
    · simp [World.setActive]
    · intro k hk
      simp [World.setActive, AList.lookup_erase_ne hk]
  · cases hp : (w.heap pf).ports with
    | nil => exact absurd hp hports
    | cons p0 rest =>
      have hp1 : ((runForward w pf none).heap pf).ports = p0 :: rest := by
        simp [runForward, World.queueUpdateDraw, World.setActive, hp]
      refine ⟨_, _, applyReport_activate _ pf p0 rest hp1, applyReport_terminate _ pf,
        ?_, ?_, ?_, ?_⟩
      · simp [World.emit, runForward_heap, AList.lookup_insert]
      · simp [World.emit, World.setActive, runForward_heap, AList.lookup_erase]
      · simp [World.emit, World.setActive]
      · intro k hk
        simp [World.emit, World.setActive, runForward_heap, runForward_forwarders,
          AList.lookup_erase_ne hk, AList.lookup_insert_ne hk]

theorem runForward_clean_close_reports_witness :
    (runForward sampleWorld 0 none).queue = sampleWorld.queue ++ [.activate 0, .terminate 0] :=
  (runForward_clean_close_reports sampleWorld 0 (by decide)).1

/-- When the tunnel ends with an error, the worker has queued the activation
only: once the render loop has run it, the registry holds the session under
its FQN and the session is marked active, and nothing is left in the queue to
undo either. -/
theorem runForward_error_keeps_entry (w : World) (pf : Ptr) (err : String)
    (hports : (w.heap pf).ports ≠ []) (hqueue : w.queue = []) :
    (runForward w pf (some err)).queue = [.activate pf] ∧
    ∃ s, drain (runForward w pf (some err)) = some s ∧
      s.forwarders.lookup (w.heap pf).fqn = some pf ∧
      (s.heap pf).active = true ∧
      s.queue = [] := by
  cases hp : (w.heap pf).ports with
  | nil => exact absurd hp hports
  | cons p0 rest =>
    have hq : (runForward w pf (some err)).queue = [.activate pf] := by
      simp [runForward, World.queueUpdateDraw, World.setActive, World.emit, hqueue]
    have hp1 : ((runForward w pf (some err)).heap pf).ports = p0 :: rest := by
      simp [runForward, World.queueUpdateDraw, World.setActive, World.emit, hp]
    have hd : drain (runForward w pf (some err))
        = applyReport (.activate pf) { runForward w pf (some err) with queue := [] } := by
      simp [drain, hq, applyReports]
    refine ⟨hq, _, hd.trans (applyReport_activate _ pf p0 rest hp1), ?_, ?_, ?_⟩
    · simp [World.emit, runForward_heap, AList.lookup_insert]
    · simp [World.emit, runForward_heap]
    · simp [World.emit]

/-- C3 fails on the code: the worker of session `ns1/pod1:app`, started on an
empty registry, whose `ForwardPorts` returns an error.  After the worker has
returned and the render loop has run everything that was queued, the registry
still maps `ns1/pod1:app` to the session and the session is still marked
active; the error was flashed. -/
theorem runForward_error_leaves_ghost :
    (runForward sampleWorld 0 (some "lost connection to pod")).queue = [.activate 0] ∧
    (drain (runForward sampleWorld 0 (some "lost connection to pod"))).map
      (fun s => s.forwarders.lookup "ns1/pod1:app") = some (some 0) ∧
    (drain (runForward sampleWorld 0 (some "lost connection to pod"))).map
      (fun s => (s.heap 0).active) = some true ∧
    (drain (runForward sampleWorld 0 (some "lost connection to pod"))).map
      (fun s => s.queue) = some [] ∧
    Effect.flashErr "lost connection to pod"
      ∈ (runForward sampleWorld 0 (some "lost connection to pod")).trace := by
  decide

/-! ## Properties of the action map -/

/-- C9: for every action map and every base, the map left by
`Container.extraActions` has one action per trigger; each of the nine
container triggers resolves to the container's binding, whatever the base
had bound there; every other trigger resolves as it does after the base
alone, so the triggers bound are exactly the nine and those of the base.
PortForward, Logs Previous and Shell are visible, the other six hidden.  The
nine key constants are pairwise distinct: that is the hypothesis `hkeys`. -/
theorem extraActions_layers_over_base (ks : Keys) (base : KeyActions → KeyActions)
    (aa : KeyActions) (hkeys : ks.triggers.Nodup) :
    (extraActions ks base aa).keys.Nodup ∧
    (extraActions ks base aa).lookup ks.KeyShiftF
      = some { description := "PortForward", action := .portFwdCmd, visible := true } ∧
    (extraActions ks base aa).lookup ks.KeyShiftL
      = some { description := "Logs Previous", action := .prevLogsCmd, visible := true } ∧
    (extraActions ks base aa).lookup ks.KeyS
      = some { description := "Shell", action := .shellCmd, visible := true } ∧
    (extraActions ks base aa).lookup ks.KeyEscape
      = some { description := "Back", action := .backCmd, visible := false } ∧
    (extraActions ks base aa).lookup ks.KeyP
      = some { description := "Previous", action := .backCmd, visible := false } ∧
    (extraActions ks base aa).lookup ks.KeyShiftC
      = some { description := "Sort CPU", action := .sortColCmd 6 false, visible := false } ∧
    (extraActions ks base aa).lookup ks.KeyShiftM
      = some { description := "Sort MEM", action := .sortColCmd 7 false, visible := false } ∧
    (extraActions ks base aa).lookup ks.KeyShiftX
      = some { description := "Sort CPU%", action := .sortColCmd 8 false, visible := false } ∧
    (extraActions ks base aa).lookup ks.KeyShiftZ
      = some { description := "Sort MEM%", action := .sortColCmd 9 false, visible := false } ∧
    (∀ k, k ∉ ks.triggers → (extraActions ks base aa).lookup k = (base aa).lookup k) ∧
    (∀ k, k ∈ extraActions ks base aa ↔ k ∈ ks.triggers ∨ k ∈ base aa) := by
  simp only [Keys.triggers, List.nodup_cons, List.mem_cons, List.mem_singleton, not_or,
    List.not_mem_nil, not_false_eq_true, List.nodup_nil, and_true] at hkeys
  obtain ⟨⟨h12, h13, h14, h15, h16, h17, h18, h19⟩, ⟨h23, h24, h25, h26, h27, h28, h29⟩,
    ⟨h34, h35, h36, h37, h38, h39⟩, ⟨h45, h46, h47, h48, h49⟩, ⟨h56, h57, h58, h59⟩,
    ⟨h67, h68, h69⟩, ⟨h78, h79⟩, h89⟩ := hkeys
  refine ⟨AList.keys_nodup _, ?_, ?_, ?_, ?_, ?_, ?_, ?_, ?_, ?_, ?_, ?_⟩
  · simp [extraActions, AList.lookup_insert, AList.lookup_insert_ne, *]
  · simp [extraActions, AList.lookup_insert, AList.lookup_insert_ne, *]
  · simp [extraActions, AList.lookup_insert, AList.lookup_insert_ne, *]
  · simp [extraActions, AList.lookup_insert, AList.lookup_insert_ne, *]
  · simp [extraActions, AList.lookup_insert, AList.lookup_insert_ne, *]
  · simp [extraActions, AList.lookup_insert, AList.lookup_insert_ne, *]
  · simp [extraActions, AList.lookup_insert, AList.lookup_insert_ne, *]
  · simp [extraActions, AList.lookup_insert, AList.lookup_insert_ne, *]
  · simp [extraActions, AList.lookup_insert, AList.lookup_insert_ne, *]
  · intro k hk
    simp only [Keys.triggers, List.mem_cons, List.mem_singleton, not_or, List.not_mem_nil,
      not_false_eq_true, and_true] at hk
    obtain ⟨k1, k2, k3, k4, k5, k6, k7, k8, k9⟩ := hk
    simp [extraActions, AList.lookup_insert_ne, *]
  · intro k
    simp only [extraActions, AList.mem_insert, Keys.triggers, List.mem_cons,
      List.mem_singleton, List.not_mem_nil, or_false]
    constructor
    · rintro (h | h | h | h | h | h | h | h | h | h) <;> simp [h]
    · rintro ((h | h | h | h | h | h | h | h | h) | h) <;> simp [h]

theorem extraActions_layers_over_base_witness :
    sampleKeys.triggers.Nodup ∧
    (extraActions sampleKeys sampleBase ∅).lookup sampleKeys.KeyShiftL
      = some { description := "Logs Previous", action := .prevLogsCmd, visible := true } ∧
    (extraActions sampleKeys sampleBase ∅).lookup sampleKeys.KeyEscape
      = some { description := "Back", action := .backCmd, visible := false } :=
  have hkeys : sampleKeys.triggers.Nodup := by decide
  have h := extraActions_layers_over_base sampleKeys sampleBase ∅ hkeys
  ⟨hkeys, h.2.2.1, h.2.2.2.2.1⟩

/-! ## Properties of checksum validation -/

theorem splitChars_append_sep (sep : Char) (l r : List Char) (hl : sep ∉ l) :
    strings.splitChars sep (l ++ sep :: r) = l :: strings.splitChars sep r := by
  induction l with
  | nil => simp [strings.splitChars]
  | cons c cs ih =>
    have hc : c ≠ sep := fun h => hl (by simp [h])
    have hcs : sep ∉ cs := fun h => hl (by simp [h])
    simp [strings.splitChars, hc, ih hcs]

theorem fieldsChars_space (d : Char) (r : List Char) (hd : unicode.IsSpace d = true) :
    strings.fieldsChars (d :: r) = strings.fieldsChars r := by
  simp [strings.fieldsChars, hd]

theorem fieldsChars_word_space (w : List Char) (hw : w ≠ [])
    (hns : ∀ c ∈ w, unicode.IsSpace c = false) (d : Char) (r : List Char)
    (hd : unicode.IsSpace d = true) :
    strings.fieldsChars (w ++ d :: r) = w :: strings.fieldsChars r := by
  induction w with
  | nil => exact absurd rfl hw
  | cons c cs ih =>
    have hc : unicode.IsSpace c = false := hns c (by simp)
    cases cs with
    | nil => simp [strings.fieldsChars, strings.fieldEnds, hc, hd]
    | cons c1 cs1 =>
      have hc1 : unicode.IsSpace c1 = false := hns c1 (by simp)
      have ih1 := ih (by simp) (fun x hx => hns x (List.mem_cons_of_mem _ hx))
      simp only [List.cons_append] at ih1 ⊢
      rw [strings.fieldsChars]
      simp [hc, hc1, ih1, strings.fieldEnds]

theorem byteLen_append (l r : List Char) :
    bufio.byteLen (l ++ r) = bufio.byteLen l + bufio.byteLen r := by
  simp [bufio.byteLen]

theorem byteLen_replicate_a (n : Nat) : bufio.byteLen (List.replicate n 'a') = n := by
  have h : Char.utf8Size 'a' = 1 := by decide
  simp [bufio.byteLen, h]

/-- The digest of the empty content and of the three bytes `abc` are the
published test vectors of SHA-256. -/
theorem sha256_known_answers :
    hex.EncodeToString (sha256.Sum [])
      = "e3b0c44298fc1c149afbf4c8996fb92427ae41e4649b934ca495991b7852b855" ∧
    hex.EncodeToString (sha256.Sum [97, 98, 99])
      = "ba7816bf8f01cfea414140de5dae2223b00361a396177a9cb410ff61f20015ad" := by
  decide

theorem digest_ne_empty (artifact : List Nat) :
    hex.EncodeToString (sha256.Sum artifact) ≠ "" := by
  intro h
  have h1 := congrArg String.length h
  simp [hex.EncodeToString, sha256.Sum, sha256.wordBytes] at h1

theorem scanLines_eq_textLines (s : String)
    (hshort : ∀ l ∈ bufio.rawLines s.toList, bufio.byteLen l < bufio.MaxScanTokenSize) :
    bufio.scanLines s = bufio.textLines s := by
  have h : (bufio.rawLines s.toList).takeWhile
      (fun l => decide (bufio.byteLen l < bufio.MaxScanTokenSize)) = bufio.rawLines s.toList := by
    rw [List.takeWhile_eq_self_iff]
    intro l hl
    simpa using hshort l hl
  unfold bufio.scanLines bufio.textLines
  rw [h]

theorem readSums_lookup (name : String) :
    ∀ (lines : List String) (md5sums : AList (fun _ : String => String)),
      (∀ l ∈ lines, 2 ≤ (strings.Fields l).length) →
      ∃ sums, readSums lines md5sums = some sums ∧
        sums.lookup name = (lastSum name lines).or (md5sums.lookup name) := by
  intro lines
  induction lines with
  | nil =>
    intro md5sums _
    exact ⟨md5sums, rfl, by simp [lastSum]⟩
  | cons l ls ih =>
    intro md5sums h
    have hl := h l (by simp)
    have hls : ∀ x ∈ ls, 2 ≤ (strings.Fields x).length := fun x hx => h x (by simp [hx])
    cases hf : strings.Fields l with
    | nil => simp [hf] at hl
    | cons z0 rest =>
      cases rest with
      | nil => simp [hf] at hl
      | cons z1 rest1 =>
        obtain ⟨sums, hsums, hlook⟩ := ih (md5sums.insert z0 z1) hls
        refine ⟨sums, by simp [readSums, hf, hsums], ?_⟩
        rw [hlook]
        cases hfind : ls.reverse.find?
            (fun x => decide ((strings.Fields x).head? = some name)) with
        | some l1 =>
          have hmem : l1 ∈ ls := by
            have := List.mem_of_find?_eq_some hfind
            simpa using this
          have hl1 := hls l1 hmem
          cases hf1 : strings.Fields l1 with
          | nil => simp [hf1] at hl1
          | cons y0 yrest =>
            cases yrest with
            | nil => simp [hf1] at hl1
            | cons y1 yrest1 =>
              simp [lastSum, List.find?_append, hfind, hf1]
        | none =>
          by_cases hz : z0 = name
          · subst hz
            simp [lastSum, List.find?_append, hfind, hf, AList.lookup_insert]
          · have hz1 : name ≠ z0 := fun h => hz h.symm
            simp [lastSum, List.find?_append, hfind, hf, hz, AList.lookup_insert_ne hz1]

theorem readSums_short_line :
    ∀ (lines : List String) (md5sums : AList (fun _ : String => String)),
      (∃ l ∈ lines, (strings.Fields l).length < 2) → readSums lines md5sums = none := by
  intro lines
  induction lines with
  | nil =>
    intro md5sums h
    obtain ⟨l, hl, _⟩ := h
    simp at hl
  | cons l ls ih =>
    intro md5sums h
    cases hf : strings.Fields l with
    | nil => simp [readSums, hf]
    | cons z0 rest =>
      cases rest with
      | nil => simp [readSums, hf]
      | cons z1 rest1 =>
        have hls : ∃ x ∈ ls, (strings.Fields x).length < 2 := by
          obtain ⟨x, hx, hlen⟩ := h
          rcases List.mem_cons.mp hx with hxl | hxl
          · rw [hxl, hf] at hlen
            simp only [List.length_cons] at hlen
            omega
          · exact ⟨x, hxl, hlen⟩
        simp [readSums, hf, ih (md5sums.insert z0 z1) hls]

/-- C10, amended: for every artifact name, artifact content and content of
`checksums.txt` in which every line is shorter than the scanner's buffer of
65536 bytes: when every line has at least two white-space separated fields,
`validateChecksums` returns, and it returns true if and only if the last line
whose first field is the artifact name has, as its second field, the
lower-case hexadecimal SHA-256 digest of the artifact's content; when in
addition no line has the artifact name as its first field it returns false.
When some line has fewer than two fields, an index goes out of range. -/
theorem validateChecksums_last_entry (checksums : String) (artifact : List Nat)
    (k9sRelease : String)
    (hshort : ∀ l ∈ bufio.rawLines checksums.toList,
      bufio.byteLen l < bufio.MaxScanTokenSize) :
    ((∀ l ∈ bufio.textLines checksums, 2 ≤ (strings.Fields l).length) →
      validateChecksums checksums artifact k9sRelease
        = some (decide (lastSum k9sRelease (bufio.textLines checksums)
            = some (hex.EncodeToString (sha256.Sum artifact)))) ∧
      ((∀ l ∈ bufio.textLines checksums, (strings.Fields l).head? ≠ some k9sRelease) →
        validateChecksums checksums artifact k9sRelease = some false)) ∧
    ((∃ l ∈ bufio.textLines checksums, (strings.Fields l).length < 2) →
      validateChecksums checksums artifact k9sRelease = none) := by
  refine ⟨fun hfields => ?_, fun hbad => ?_⟩
  · obtain ⟨sums, hsums, hlook⟩ :=
      readSums_lookup k9sRelease (bufio.textLines checksums) ∅ hfields
    have hne := digest_ne_empty artifact
    have hval : validateChecksums checksums artifact k9sRelease
        = some (decide (lastSum k9sRelease (bufio.textLines checksums)
            = some (hex.EncodeToString (sha256.Sum artifact)))) := by
      unfold validateChecksums
      rw [scanLines_eq_textLines checksums hshort, hsums]
      simp only [hlook]
      cases hlast : lastSum k9sRelease (bufio.textLines checksums) with
      | none =>
        have : ("" : String) ≠ hex.EncodeToString (sha256.Sum artifact) := fun h => hne h.symm
        simp [this]
      | some v => simp
    refine ⟨hval, ?_⟩
    intro hno
    rw [hval]
    have hfind : (bufio.textLines checksums).reverse.find?
        (fun l => decide ((strings.Fields l).head? = some k9sRelease)) = none := by
      rw [List.find?_eq_none]
      intro l hl
      simpa using hno l (by simpa using hl)
    simp [lastSum, hfind]
  · unfold validateChecksums
    rw [scanLines_eq_textLines checksums hshort, readSums_short_line _ _ hbad]

theorem validateChecksums_last_entry_witness :
    validateChecksums sampleChecksums [] sampleName = some true :=
  ((validateChecksums_last_entry sampleChecksums [] sampleName (by decide)).1
    (by decide)).1.trans (by decide)

theorem longChecksums_rawLines (n : Nat) :
    bufio.rawLines (longChecksums n).toList
      = [List.replicate n 'a' ++ [' ', 'x'], sampleEntry.toList] := by
  have e : (longChecksums n).toList
      = (List.replicate n 'a' ++ [' ', 'x']) ++ '\n' :: (sampleEntry.toList ++ ['\n']) := by
    simp [longChecksums, String.toList]
  have hnl : '\n' ∉ List.replicate n 'a' ++ [' ', 'x'] := by
    intro h
    rcases List.mem_append.mp h with h1 | h1
    · exact absurd (List.eq_of_mem_replicate h1) (by decide)
    · revert h1
      decide
  have htail : strings.splitChars '\n' (sampleEntry.toList ++ ['\n'])
      = [sampleEntry.toList, []] := by decide
  unfold bufio.rawLines
  rw [e, splitChars_append_sep _ _ _ hnl, htail]
  rfl

theorem longChecksums_lines (n : Nat) (hn : bufio.MaxScanTokenSize ≤ n) :
    bufio.textLines (longChecksums n)
        = [String.mk (List.replicate n 'a' ++ [' ', 'x']), sampleEntry] ∧
    strings.Fields (String.mk (List.replicate n 'a' ++ [' ', 'x']))
        = [String.mk (List.replicate n 'a'), "x"] ∧
    bufio.scanLines (longChecksums n) = [] := by
  have hpos : 0 < n := lt_of_lt_of_le (by decide) hn
  have hcr : bufio.dropCR (List.replicate n 'a' ++ [' ', 'x'])
      = List.replicate n 'a' ++ [' ', 'x'] := by
    have hlast : (List.replicate n 'a' ++ [' ', 'x']).getLast? = some 'x' := by
      simp [List.getLast?_append]
    simp [bufio.dropCR, hlast]
  have hcr2 : bufio.dropCR sampleEntry.toList = sampleEntry.toList := by decide
  refine ⟨?_, ?_, ?_⟩
  · unfold bufio.textLines
    rw [longChecksums_rawLines]
    simp only [List.map_cons, List.map_nil, hcr, hcr2]
    rfl
  · have hw : List.replicate n 'a' ≠ [] := by
      intro h
      have := congrArg List.length h
      simp at this
      omega
    have hns : ∀ c ∈ List.replicate n 'a', unicode.IsSpace c = false := by
      intro c hc
      rw [List.eq_of_mem_replicate hc]
      decide
    have hx : strings.fieldsChars ['x'] = [['x']] := by decide
    have hf := fieldsChars_word_space (List.replicate n 'a') hw hns ' ' ['x'] (by decide)
    unfold strings.Fields
    show (strings.fieldsChars (List.replicate n 'a' ++ [' ', 'x'])).map String.mk = _
    rw [hf, hx]
    rfl
  · unfold bufio.scanLines
    rw [longChecksums_rawLines]
    have hlen : ¬ bufio.byteLen (List.replicate n 'a' ++ [' ', 'x']) < bufio.MaxScanTokenSize := by
      rw [byteLen_append, byteLen_replicate_a]
      omega
    simp [List.takeWhile, hlen]

/-- With a first line of at least 65536 bytes, every line of the file has two
fields and the last line naming the archive carries the digest of the empty
archive, yet `validateChecksums` returns false: the scanner stops at the long
line and no entry is read. -/
theorem validateChecksums_long_line (n : Nat) (hn : bufio.MaxScanTokenSize ≤ n) :
    (∀ l ∈ bufio.textLines (longChecksums n), 2 ≤ (strings.Fields l).length) ∧
    lastSum sampleName (bufio.textLines (longChecksums n))
      = some (hex.EncodeToString (sha256.Sum [])) ∧
    validateChecksums (longChecksums n) [] sampleName = some false := by
  obtain ⟨hlines, hfields, hscan⟩ := longChecksums_lines n hn
  have hentry : strings.Fields sampleEntry
      = [sampleName, hex.EncodeToString (sha256.Sum [])] := by decide
  refine ⟨?_, ?_, ?_⟩
  · intro l hl
    rw [hlines] at hl
    simp only [List.mem_cons, List.mem_singleton, List.not_mem_nil, or_false] at hl
    rcases hl with h | h
    · rw [h, hfields]
      simp
    · rw [h, hentry]
      simp
  · rw [hlines]
    simp [lastSum, List.find?, hentry]
  · have hne := digest_ne_empty []
    have hne1 : ("" : String) ≠ hex.EncodeToString (sha256.Sum []) := fun h => hne h.symm
    unfold validateChecksums
    rw [hscan]
    simp [readSums, hne1]

/-- C10, as stated, fails: in this `checksums.txt` the first line is 65536
letters `a`, a blank and an `x`, the second names the archive and gives the
digest of its (empty) content.  Every line has two fields and the last line
whose first field is the archive name has the right digest as its second
field, but `validateChecksums` returns false. -/
theorem validateChecksums_long_line_counterexample :
    (∀ l ∈ bufio.textLines (longChecksums 65536), 2 ≤ (strings.Fields l).length) ∧
    lastSum sampleName (bufio.textLines (longChecksums 65536))
      = some (hex.EncodeToString (sha256.Sum [])) ∧
    validateChecksums (longChecksums 65536) [] sampleName = some false :=
  validateChecksums_long_line 65536 (by decide)

end K9s
